import Mathlib

/-!
Shallow embedding of the gmbm stack-interface and user-type subsystem.

The Lua host is modelled by a small explicit state (`St`): the value
stack, the userdata heap, the registry table, the named-metatable
registry and the metatable field store.  Host virtual calls
(`top`, `pop`, `raw_get`, ...) are Lean functions on this state,
following the interface contract the binding relies on; the binding's
own functions (`push_string`, `set_top`, `test_ud_ptr`, `register`,
`user_type_of`, ...) are translated from `src/gmod13`.

Lua numbers are represented by their raw 64-bit pattern (a `Nat`
below `2 ^ 64`): `f64::to_bits` and `f64::from_bits` are bit-level
reinterpretations in Rust, and the host stores pushed numbers
verbatim, so a number value is fully described by its bits.
-/

/-- Rust cast `x as u64` for a `c_int` value `x` (sign-extending two's complement). -/
def nat64OfInt (x : Int) : Nat := (x % 18446744073709551616).toNat

/-- Rust cast `n as c_int` for a `u64` value `n` (truncation to the low 32 bits). -/
def int32OfNat64 (n : Nat) : Int :=
  if n % 4294967296 < 2147483648 then ((n % 4294967296 : Nat) : Int)
  else ((n % 4294967296 : Nat) : Int) - 4294967296

/-- Rust cast `x as c_uchar` for a `c_int` value `x` (truncation to the low 8 bits). -/
def ucharOfInt (x : Int) : Nat := (x % 256).toNat

lemma int32_roundtrip (x : Int) (h1 : -2147483648 ≤ x) (h2 : x < 2147483648) :
    int32OfNat64 (nat64OfInt x) = x := by
  unfold int32OfNat64 nat64OfInt
  split <;> omega

/-- Code identities for the native closures the binding pushes. -/
inductive FuncCode where
  | userGc
deriving DecidableEq

/-- Lua values, as far as the modelled operations distinguish them.
Userdata values reference the heap by index; native payloads live in
the heap record, not in the stack value. -/
inductive Value where
  | nil
  | boolean (b : Bool)
  | number (bits : Nat)
  | lightud (ptr : Nat)
  | udata (i : Nat)
  | mtable (ty : Int)
  | globtab
  | envtab
  | registrytab
  | closure (code : FuncCode) (ups : List Value)

/-- The `RawUd` header of `user_types/mod.rs` together with the embedded
native value (`RawUdOf<T>`): the `data` pointer (modelled as the heap
index of the object whose embedded value it addresses, `none` for null),
the narrow `c_uchar` tag `ty`, the full `rust_ty` type identifier, the
payload, and the attached metatable's type id (host side). -/
structure UdObj (V : Type) where
  data : Option Nat
  ty : Nat
  rust_ty : Int
  payload : V
  mt : Option Int

/-- Host interpreter state: stack (head = top), userdata heap, registry
table, named-metatable registry (`CreateMetaTable` names to type ids),
metatable field store, the next fresh type id, and whether userdata
allocation fails (`new_userdata` returning null). -/
structure St (V : Type) where
  stack : List Value
  heap : List (UdObj V)
  registry : List (Value × Value)
  mtNames : List (String × Int)
  mtFields : List ((Int × String) × Value)
  nextTy : Int
  allocFail : Bool

/-- Non-local host exits: `arg_error` and `throw_error`. -/
inductive LErr where
  | argError (argNum : Int) (msg : String)
  | thrown (msg : String)
deriving DecidableEq

/-- The `Special` enum of `raw.rs`. -/
inductive Special where
  | glob
  | env
  | registry

variable {V : Type}

/-- Stack position resolution: positive positions are 1-based from the
bottom, negative from the top (`-1` = top). -/
def resolve (stk : List Value) (pos : Int) : Option Value :=
  if 0 < pos then
    if pos ≤ (stk.length : Int) then stk.get? (stk.length - pos.toNat) else none
  else if pos < 0 then stk.get? ((-pos).toNat - 1)
  else none

/-- Host type tag of a value (`StdType` numbering: Nil 0, Bool 1,
LightUserData 2, Number 3, Table 5, Function 6, UserData 7); a userdata
with an attached registered metatable reports that metatable's type id. -/
def hostTypeOf (s : St V) : Value → Int
  | .nil => 0
  | .boolean _ => 1
  | .lightud _ => 2
  | .number _ => 3
  | .mtable _ => 5
  | .globtab => 5
  | .envtab => 5
  | .registrytab => 5
  | .closure _ _ => 6
  | .udata i =>
    match s.heap.get? i with
    | some o => o.mt.getD 7
    | none => 7

/-- `Lua::get_type`: type of the value at `pos`, `-1` (None) when out of range. -/
def get_type (s : St V) (pos : Int) : Int :=
  match resolve s.stack pos with
  | some v => hostTypeOf s v
  | none => -1

/-- `Lua::is_type`. -/
def is_type (s : St V) (pos : Int) (ty : Int) : Bool := get_type s pos == ty

/-- `Lua::get_userdata` followed by the `cast::<RawUd>().as_ref()` step of
`test_ud_ptr`: yields the header block for a full userdata value, `none`
(null pointer) otherwise. -/
def get_userdata (s : St V) (pos : Int) : Option (UdObj V) :=
  match resolve s.stack pos with
  | some (.udata i) => s.heap.get? i
  | _ => none

/-- `Lua::push_number` (numbers carried by their bit pattern). -/
def push_number (s : St V) (bits : Nat) : St V := { s with stack := .number bits :: s.stack }

/-- `Lua::push_bits`: `push_number(Number::from_bits(i))`; `from_bits` is the
bit-level identity. -/
def push_bits (s : St V) (i : Nat) : St V := push_number s i

/-- `Lua::get_number`: the number at `pos`, or `0.0` (bit pattern 0) if the
value is not a number. -/
def get_number (s : St V) (pos : Int) : Nat :=
  match resolve s.stack pos with
  | some (.number b) => b
  | _ => 0

/-- `Lua::get_bits`: `get_number(pos).to_bits()`; `to_bits` is the bit-level
identity. -/
def get_bits (s : St V) (pos : Int) : Nat := get_number s pos

/-- `Lua::push_nil`. -/
def push_nil (s : St V) : St V := { s with stack := .nil :: s.stack }

/-- `Lua::push_light_userdata`. -/
def push_lightud (s : St V) (p : Nat) : St V := { s with stack := .lightud p :: s.stack }

/-- `Lua::push_special`. -/
def push_special (s : St V) (w : Special) : St V :=
  { s with stack :=
      (match w with
        | .glob => Value.globtab
        | .env => Value.envtab
        | .registry => Value.registrytab) :: s.stack }

/-- `Lua::push_registry` = `push_special(Special::Registry)`. -/
def push_registry (s : St V) : St V := push_special s .registry

/-- `Lua::pop`. -/
def pop (s : St V) (n : Nat) : St V := { s with stack := s.stack.drop n }

/-- `Lua::top`. -/
def top (s : St V) : Nat := s.stack.length

/-- Raw (metamethod-free) key equality used by the registry table.
Closures compare by identity in Lua; they are never used as keys by the
binding, and the model conservatively treats them as unequal. -/
def keyEq : Value → Value → Bool
  | .nil, .nil => true
  | .boolean a, .boolean b => a == b
  | .number a, .number b => a == b
  | .lightud a, .lightud b => a == b
  | .udata a, .udata b => a == b
  | .mtable a, .mtable b => a == b
  | .globtab, .globtab => true
  | .envtab, .envtab => true
  | .registrytab, .registrytab => true
  | _, _ => false

/-- Raw lookup in the registry table. -/
def rlookup : List (Value × Value) → Value → Option Value
  | [], _ => none
  | (k', v) :: rest, k => if keyEq k' k then some v else rlookup rest k

/-- Raw assignment in the registry table. -/
def rinsert : List (Value × Value) → Value → Value → List (Value × Value)
  | [], k, v => [(k, v)]
  | (k', v') :: rest, k, v => if keyEq k' k then (k, v) :: rest else (k', v') :: rinsert rest k v

/-- `Lua::raw_get`: pops the key from the top and pushes `t[key]`, where `t`
is the value at `pos` (resolved with the key still on the stack).  Only the
registry table is modelled as a store; other tables yield `nil`. -/
def raw_get (s : St V) (pos : Int) : St V :=
  match s.stack with
  | [] => s
  | k :: rest =>
    let v := match resolve s.stack pos with
      | some .registrytab => (rlookup s.registry k).getD .nil
      | _ => Value.nil
    { s with stack := v :: rest }

/-- `Lua::raw_set`: `t[key] = value` with `value` popped from the top and
`key` from just below it, `t` at `pos` (resolved before popping). -/
def raw_set (s : St V) (pos : Int) : St V :=
  match s.stack with
  | v :: k :: rest =>
    match resolve s.stack pos with
    | some .registrytab => { s with stack := rest, registry := rinsert s.registry k v }
    | _ => { s with stack := rest }
  | _ => s

/-- Lookup in the metatable field store. -/
def flookup : List ((Int × String) × Value) → (Int × String) → Option Value
  | [], _ => none
  | (k', v) :: rest, k => if k' = k then some v else flookup rest k

/-- Assignment in the metatable field store. -/
def finsert : List ((Int × String) × Value) → (Int × String) → Value →
    List ((Int × String) × Value)
  | [], k, v => [(k, v)]
  | (k', v') :: rest, k, v => if k' = k then (k, v) :: rest else (k', v') :: finsert rest k v

/-- `Lua::set_field`: sets `t[key]` to the value popped from the top, `t` at
`pos`; only metatable field stores are modelled. -/
def set_field (s : St V) (pos : Int) (key : String) : St V :=
  match s.stack with
  | [] => s
  | v :: rest =>
    match resolve s.stack pos with
    | some (.mtable t) => { s with stack := rest, mtFields := finsert s.mtFields (t, key) v }
    | _ => { s with stack := rest }

/-- `Lua::push_c_closure`: pops `n` upvalues and pushes a closure capturing
them (the topmost value becomes upvalue 0). -/
def push_c_closure (s : St V) (code : FuncCode) (n : Nat) : St V :=
  { s with stack := .closure code (s.stack.take n) :: s.stack.drop n }

/-- `SelfCtx::push_method`: pushes the bound type id as bits, then a
one-upvalue closure over the method. -/
def push_method (s : St V) (ty : Int) (code : FuncCode) : St V :=
  push_c_closure (push_bits s (nat64OfInt ty)) code 1

/-- Name lookup in the host's named-metatable registry. -/
def lookupName : List (String × Int) → String → Option Int
  | [], _ => none
  | (n', t) :: rest, n => if n' = n then some t else lookupName rest n

/-- `Lua::create_metatable` (host `CreateMetaTable`): pushes the metatable
registered under `name`, creating it with a fresh type id if absent, and
returns its type id. -/
def create_metatable (s : St V) (name : String) : Int × St V :=
  match lookupName s.mtNames name with
  | some t => (t, { s with stack := .mtable t :: s.stack })
  | none =>
    (s.nextTy, { s with
      stack := .mtable s.nextTy :: s.stack,
      mtNames := s.mtNames ++ [(name, s.nextTy)],
      nextTy := s.nextTy + 1 })

/-- Whether a metatable with the given type id exists. -/
def mtExists (s : St V) (ty : Int) : Bool := s.mtNames.any (fun p => p.2 == ty)

/-- `Lua::push_metatable` (host `PushMetaTable`): pushes the metatable for
`ty` and reports success. -/
def push_metatable (s : St V) (ty : Int) : Bool × St V :=
  if mtExists s ty then (true, { s with stack := .mtable ty :: s.stack }) else (false, s)

/-- Attach metatable id `t` to heap object `i`. -/
def heapSetMt (h : List (UdObj V)) (i : Nat) (t : Int) : List (UdObj V) :=
  match h.get? i with
  | some o => h.set i { o with mt := some t }
  | none => h

/-- `Lua::set_metatable`: pops the table from the top and installs it as the
metatable of the value at `pos` (resolved with the table still on the stack). -/
def set_metatable (s : St V) (pos : Int) : St V :=
  match s.stack with
  | [] => s
  | m :: rest =>
    match resolve s.stack pos with
    | some (.udata i) =>
      { s with
        stack := rest,
        heap := (match m with | .mtable t => heapSetMt s.heap i t | _ => s.heap) }
    | _ => { s with stack := rest }

/-- The push loop of `Lua::set_top`. -/
def pushNils (s : St V) : Nat → St V
  | 0 => s
  | n+1 => pushNils (push_nil s) n

/-- `Lua::set_top` (lua.rs): pushes `n - top` nils when the target is at or
above the current depth, otherwise pops `top - n` values. -/
def set_top (s : St V) (n : Nat) : St V :=
  if s.stack.length ≤ n then pushNils s (n - s.stack.length)
  else pop s (s.stack.length - n)

lemma pushNils_stack (s : St V) (k : Nat) :
    (pushNils s k).stack = List.replicate k .nil ++ s.stack := by
  induction k generalizing s with
  | zero => rfl
  | succ n ih =>
    rw [pushNils, ih]
    simp [push_nil, List.replicate_succ']

/-- C6: `set_top(n)` leaves the stack at depth exactly `n`, padding with nil
or truncating, and a second `set_top(n)` is the identity on the result. -/
theorem c6_set_top_idempotent (s : St V) (n : Nat) :
    (set_top s n).stack.length = n
    ∧ set_top (set_top s n) n = set_top s n
    ∧ (s.stack.length ≤ n →
        (set_top s n).stack = List.replicate (n - s.stack.length) .nil ++ s.stack)
    ∧ (n ≤ s.stack.length → (set_top s n).stack = s.stack.drop (s.stack.length - n)) := by
  have hlen : (set_top s n).stack.length = n := by
    unfold set_top
    split
    · rw [pushNils_stack]; simp; omega
    · simp [pop]; omega
  refine ⟨hlen, ?_, ?_, ?_⟩
  · conv_lhs => rw [set_top]
    rw [hlen]
    simp [pushNils]
  · intro h
    unfold set_top
    rw [if_pos h, pushNils_stack]
  · intro h
    unfold set_top
    split
    · have : s.stack.length = n := by omega
      rw [pushNils_stack]
      simp [this]
    · simp [pop]

/-- Closed instance of the `set_top` law at a concrete stack. -/
theorem c6_set_top_idempotent_witness :
    (set_top (St.mk [.nil, .number 7] [] [] [] [] 0 false : St Nat) 5).stack.length = 5
    ∧ ([.nil, .number 7] : List Value).length ≤ 5
    ∧ (set_top (St.mk [.nil, .number 7] [] [] [] [] 0 false : St Nat) 5).stack
        = List.replicate 3 .nil ++ [.nil, .number 7] := by
  refine ⟨(c6_set_top_idempotent _ 5).1, by decide, ?_⟩
  have h := (c6_set_top_idempotent (St.mk [.nil, .number 7] [] [] [] [] 0 false : St Nat) 5).2.2.1
  simpa using h (by decide)

/-- C7: pushing a raw 64-bit pattern with `push_bits` and reading it back
with `get_bits` at the pushed position (top, addressed both relatively and
absolutely) returns exactly the same bits. -/
theorem c7_bits_roundtrip (s : St V) (x : Nat) (_hx : x < 18446744073709551616) :
    get_bits (push_bits s x) (-1) = x
    ∧ get_bits (push_bits s x) ((s.stack.length : Int) + 1) = x := by
  constructor
  · simp [get_bits, get_number, push_bits, push_number, resolve]
  · have hlen : ((push_bits s x).stack.length : Int) = (s.stack.length : Int) + 1 := by
      simp [push_bits, push_number]
    simp only [get_bits, get_number, push_bits, push_number, resolve]
    have h0 : (0 : Int) < (s.stack.length : Int) + 1 := by positivity
    rw [if_pos h0]
    simp

/-- Closed instance of the bits round-trip law. -/
theorem c7_bits_roundtrip_witness :
    get_bits (push_bits (St.mk [] [] [] [] [] 0 false : St Nat) 18446744073709551615) (-1)
      = 18446744073709551615 :=
  (c7_bits_roundtrip _ 18446744073709551615 (by omega)).1

/-- The `c_int::MAX` bound of `func.rs`. -/
def cIntMax : Int := 2147483647

/-- `Rets` of `func.rs`: the declared-result count handed back to the host. -/
structure Rets where
  count : Int

/-- `Rets::new_unchecked`. -/
def Rets.new_unchecked (c : Int) : Rets := ⟨c⟩

/-- `Rets::new`: clamps to 0 when `n` exceeds `c_int::MAX`. -/
def Rets.new (n : Nat) : Rets :=
  Rets.new_unchecked (if (n : Int) ≤ cIntMax then (n : Int) else 0)

/-- `Rets::ZERO`. -/
def Rets.ZERO : Rets := Rets.new 0

/-- `impl From<usize> for Rets`. -/
def retsFromUsize (n : Nat) : Rets := Rets.new n

/-- `impl From<()> for Rets`. -/
def retsFromUnit : Rets := Rets.ZERO

/-- C10: every `Rets` built through the safe constructors has a non-negative
count, and `Rets::new(n)` is `n` up to `c_int::MAX` and `0` above it. -/
theorem c10_rets_nonneg (n : Nat) :
    0 ≤ (Rets.new n).count
    ∧ 0 ≤ Rets.ZERO.count
    ∧ 0 ≤ (retsFromUsize n).count
    ∧ 0 ≤ retsFromUnit.count
    ∧ ((n : Int) ≤ cIntMax → (Rets.new n).count = n)
    ∧ (cIntMax < (n : Int) → (Rets.new n).count = 0) := by
  refine ⟨?_, ?_, ?_, ?_, ?_, ?_⟩
  · show (0 : Int) ≤ if (n : Int) ≤ cIntMax then (n : Int) else 0
    split <;> omega
  · decide
  · show (0 : Int) ≤ if (n : Int) ≤ cIntMax then (n : Int) else 0
    split <;> omega
  · decide
  · intro h
    show (if (n : Int) ≤ cIntMax then (n : Int) else 0) = n
    rw [if_pos h]
  · intro h
    show (if (n : Int) ≤ cIntMax then (n : Int) else 0) = 0
    rw [if_neg (not_le.mpr h)]

/-- Closed instance of the `Rets` invariant above and below the clamp. -/
theorem c10_rets_nonneg_witness :
    (Rets.new 5).count = 5 ∧ (Rets.new 2147483648).count = 0 :=
  ⟨(c10_rets_nonneg 5).2.2.2.2.1 (by decide),
   (c10_rets_nonneg 2147483648).2.2.2.2.2 (by decide)⟩

/-- Static data of a `UserType` implementation: the metatable name
(`UserTypeBase::ID`), the address of that identity string (the registry key
pushed by `push_registry_key`), the `EXPECTED_ERR` message, and whether the
native type needs dropping (`needs_drop::<T>()`). -/
structure UTDecl where
  name : String
  keyAddr : Nat
  expectedErr : String
  needsDrop : Bool

/-- `Lua::create_user_type` (user_types/mod.rs): allocates a headed block,
initializes the embedded value, stamps `data`, the narrow `ty` byte and the
full `rust_ty`, then attaches the metatable for `ty` when one exists.
Allocation and the `init` write are fused (`MaybeUninit` has no shallow
counterpart); `none` is the null-allocation early return. -/
def create_user_type (s : St V) (ty : Int) (v : V) : Option (Nat × St V) :=
  if s.allocFail then none
  else
    let i := s.heap.length
    let obj : UdObj V :=
      { data := some i, ty := ucharOfInt ty, rust_ty := ty, payload := v, mt := none }
    let s1 : St V := { s with heap := s.heap ++ [obj], stack := .udata i :: s.stack }
    let pm := push_metatable s1 ty
    some (i, if pm.1 then set_metatable pm.2 (-2) else pm.2)

/-- `Lua::push_user_type`: `create_user_type` with an initializer writing `v`. -/
def push_user_type (s : St V) (ty : Int) (v : V) : Option (Nat × St V) :=
  create_user_type s ty v

/-- `Lua::test_ud_ptr`: host type check, header fetch, the header tag test
exactly as written in the source (`ud.ty != ty as c_uchar && ud.rust_ty !=
ty`), then the `NonNull::new(ud.data)` result. -/
def test_ud_ptr (s : St V) (ty : Int) (pos : Int) : Option Nat :=
  if is_type s pos ty then
    match get_userdata s pos with
    | none => none
    | some u => if u.ty ≠ ucharOfInt ty ∧ u.rust_ty ≠ ty then none else u.data
  else none

/-- `Lua::check_ud_ptr`: `test_ud_ptr`, or an `arg_error` carrying
`T::EXPECTED_ERR` on absence. -/
def check_ud_ptr (s : St V) (T : UTDecl) (ty arg : Int) : Except LErr Nat :=
  match test_ud_ptr s ty arg with
  | some t => .ok t
  | none => .error (.argError arg T.expectedErr)

/-- Dereference a data pointer (heap index) to the embedded value. -/
def deref (s : St V) (p : Nat) : Option V := (s.heap.get? p).map UdObj.payload

/-- `Lua::test_ud`: `test_ud_ptr` then `as_ref`. -/
def test_ud (s : St V) (ty pos : Int) : Option V := (test_ud_ptr s ty pos).bind (deref s)

/-- `Lua::check_ud`: `check_ud_ptr` then `as_ref`. -/
def check_ud (s : St V) (T : UTDecl) (ty arg : Int) : Except LErr (Option V) :=
  (check_ud_ptr s T ty arg).map (deref s)

/-- The body of `Lua::register` after `create_metatable`: caches the type id
in the registry under the identity-pointer key, pops the registry table, and
installs the `__gc` closure when the type needs dropping. -/
def register_rest (T : UTDecl) (ty : Int) (sA : St V) : St V :=
  let s1 := push_registry sA
  let s2 := push_lightud s1 T.keyAddr
  let s3 := push_bits s2 (nat64OfInt ty)
  let s4 := raw_set s3 (-3)
  let s5 := pop s4 1
  if T.needsDrop then set_field (push_method s5 ty .userGc) (-2) "__gc" else s5

/-- `Lua::register`: `create_metatable(T::ID)`, the registry caching and
`__gc` installation of `register_rest`, then the caller-supplied
`T::init_metatable` (`f`, given the type id and the state). -/
def register (s : St V) (T : UTDecl) (f : Int → St V → St V) : Int × St V :=
  let r := create_metatable s T.name
  (r.1, f r.1 (register_rest T r.1 r.2))

/-- `Lua::user_type_of`: pushes the registry and the identity-pointer key,
raw-gets, throws if the cached value is not a number, else decodes the bits
as the type id (`raw_ty as c_int`) and pops the looked-up value. -/
def user_type_of (s : St V) (T : UTDecl) : Except LErr (Int × St V) :=
  let s3 := raw_get (push_lightud (push_registry s) T.keyAddr) (-2)
  if is_type s3 (-1) 3 then .ok (int32OfNat64 (get_bits s3 (-1)), pop s3 1)
  else .error (.thrown "type does not have an associated type ID in this Lua state")

/-- Repeated calls of `user_type_of` in a session (each call continuing from
the state the previous one returned). -/
def utoIter (T : UTDecl) : Nat → St V → Except LErr (Int × St V)
  | 0, s => user_type_of s T
  | n+1, s =>
    match user_type_of s T with
    | .ok p => utoIter T n p.2
    | .error e => .error e

/-- Observable steps of instance finalization. -/
inductive GcEvent where
  | collect (i : Nat)
  | drop (i : Nat)
deriving DecidableEq

/-- `MethodFuncCtx::lua`: reads upvalue 0 as bits (`get_bits`, 0 for a
non-number) and truncates to `RawType`. -/
def method_cx_ty (ups : List Value) : Int :=
  int32OfNat64 (match ups.get? 0 with | some (.number b) => b | _ => 0)

/-- `user_type_gc` (user_types/mod.rs): `check_self_ptr` on argument 1 with
the type bound via upvalue 0, then `T::collect` on the still-live value
followed by `drop_in_place`, returning the event trace of those two steps. -/
def user_type_gc (T : UTDecl) (ups : List Value) (s : St V) :
    Except LErr (List GcEvent × St V) :=
  match check_ud_ptr s T (method_cx_ty ups) 1 with
  | .ok p => .ok ([.collect p, .drop p], s)
  | .error e => .error e

lemma lget_concat (l : List α) (a : α) : (l ++ [a]).get? l.length = some a := by
  induction l with
  | nil => rfl
  | cons x xs ih => simp

lemma lset_concat (l : List α) (a b : α) : (l ++ [a]).set l.length b = l ++ [b] := by
  induction l with
  | nil => rfl
  | cons x xs ih => simp

lemma heapSetMt_concat (h : List (UdObj V)) (o : UdObj V) (t : Int) :
    heapSetMt (h ++ [o]) h.length t = h ++ [{ o with mt := some t }] := by
  simp [heapSetMt, lget_concat, lset_concat]

lemma resolve_neg_one (a : Value) (l : List Value) : resolve (a :: l) (-1) = some a := by
  norm_num [resolve]

lemma resolve_neg_two (a b : Value) (l : List Value) :
    resolve (a :: b :: l) (-2) = some b := by
  norm_num [resolve]
  simp [show Int.toNat 2 - 1 = 1 from rfl]

lemma resolve_neg_three (a b c : Value) (l : List Value) :
    resolve (a :: b :: c :: l) (-3) = some c := by
  norm_num [resolve]
  simp [show Int.toNat 3 - 1 = 2 from rfl]

lemma resolve_one_singleton (a : Value) : resolve [a] 1 = some a := by
  norm_num [resolve]

/-- The header block `push_user_type` creates for type id `ty` and value `v`
on state `s`, after metatable attachment. -/
def pushedUd (s : St V) (ty : Int) (v : V) : UdObj V :=
  { data := some s.heap.length, ty := ucharOfInt ty, rust_ty := ty, payload := v, mt := some ty }

/-- The state after `push_user_type` succeeds with a registered metatable. -/
def pushedSt (s : St V) (ty : Int) (v : V) : St V :=
  { s with
    heap := s.heap ++ [pushedUd s ty v],
    stack := .udata s.heap.length :: s.stack }

lemma push_user_type_eq (s : St V) (ty : Int) (v : V)
    (hmt : mtExists s ty = true) (halloc : s.allocFail = false) :
    push_user_type s ty v = some (s.heap.length, pushedSt s ty v) := by
  have hmt1 : s.mtNames.any (fun p => p.2 == ty) = true := hmt
  unfold push_user_type create_user_type
  simp only [halloc, Bool.false_eq_true, if_false, push_metatable, mtExists, set_metatable,
    resolve_neg_two, heapSetMt_concat, pushedSt, pushedUd, hmt1, if_true]

lemma is_type_pushedSt (s : St V) (ty : Int) (v : V) (t : Int) :
    is_type (pushedSt s ty v) (-1) t = (ty == t) := by
  simp [is_type, get_type, pushedSt, resolve_neg_one, hostTypeOf, lget_concat, pushedUd]

lemma test_ud_ptr_pushedSt_same (s : St V) (ty : Int) (v : V) :
    test_ud_ptr (pushedSt s ty v) ty (-1) = some s.heap.length := by
  unfold test_ud_ptr
  rw [is_type_pushedSt]
  simp [get_userdata, pushedSt, resolve_neg_one, lget_concat, pushedUd]

lemma test_ud_ptr_pushedSt_other (s : St V) (ty ty' : Int) (v : V) (h : ty' ≠ ty) :
    test_ud_ptr (pushedSt s ty v) ty' (-1) = none := by
  have hb : (ty == ty') = false := beq_eq_false_iff_ne.mpr (Ne.symm h)
  unfold test_ud_ptr
  rw [is_type_pushedSt, hb]
  rfl

/-- C2: pushing `v` with `push_user_type` under a registered type id `ty`
and downcasting the resulting top-of-stack value with `ty` yields the pushed
value, via both `test_ud` and `check_ud`; downcasting with the id of a
different registered type yields `none` for `test_ud` and an argument error
for `check_ud`. -/
theorem c2_push_then_downcast (s : St V) (T' : UTDecl) (ty ty' : Int) (v : V)
    (hmt : mtExists s ty = true) (halloc : s.allocFail = false)
    (_hmt' : mtExists s ty' = true) (hne : ty' ≠ ty) :
    ∃ i s₁, push_user_type s ty v = some (i, s₁)
      ∧ test_ud s₁ ty (-1) = some v
      ∧ check_ud s₁ T' ty (-1) = .ok (some v)
      ∧ test_ud s₁ ty' (-1) = none
      ∧ check_ud s₁ T' ty' (-1) = .error (.argError (-1) T'.expectedErr) := by
  refine ⟨s.heap.length, pushedSt s ty v, push_user_type_eq s ty v hmt halloc, ?_, ?_, ?_, ?_⟩
  · rw [test_ud, test_ud_ptr_pushedSt_same]
    simp [deref, pushedSt, lget_concat, pushedUd]
  · rw [check_ud, check_ud_ptr, test_ud_ptr_pushedSt_same]
    simp [Except.map, deref, pushedSt, lget_concat, pushedUd]
  · rw [test_ud, test_ud_ptr_pushedSt_other s ty ty' v hne]
    rfl
  · rw [check_ud, check_ud_ptr, test_ud_ptr_pushedSt_other s ty ty' v hne]
    rfl

/-- Closed instance of the push/downcast law at type ids 240 and 241. -/
theorem c2_push_then_downcast_witness :
    ∃ i s₁,
      push_user_type (St.mk [] [] [] [("A", 240), ("B", 241)] [] 242 false : St Nat) 240 5
        = some (i, s₁)
      ∧ test_ud s₁ 240 (-1) = some 5
      ∧ test_ud s₁ 241 (-1) = none := by
  obtain ⟨i, s₁, h1, h2, _h3, h4, _h5⟩ :=
    c2_push_then_downcast (St.mk [] [] [] [("A", 240), ("B", 241)] [] 242 false : St Nat)
      (UTDecl.mk "B" 9 "B expected" false) 240 241 5
      (by decide) (by decide) (by decide) (by decide)
  exact ⟨i, s₁, h1, h2, h4⟩

/-- A state whose top-of-stack userdata has a header in which the narrow
tag matches type id 300 (`300 mod 256 = 44`) but the full identifier is 77. -/
def c1Obj : UdObj Nat :=
  { data := some 0, ty := 44, rust_ty := 77, payload := 5, mt := some 300 }

/-- Stack holding exactly one such userdata. -/
def c1St : St Nat :=
  { stack := [.udata 0], heap := [c1Obj], registry := [], mtNames := [("Evil", 300)],
    mtFields := [], nextTy := 301, allocFail := false }

/-- The user type declaration expecting type id 300. -/
def c1T : UTDecl :=
  { name := "Evil", keyAddr := 9, expectedErr := "Evil expected", needsDrop := false }

/-- C1: evaluation of `test_ud_ptr`/`check_ud_ptr` at a header whose full
Type Identifier disagrees with the expected id 300 while the narrow tag
agrees: the source's `&&` in the header test accepts the value, returning
the data pointer instead of the absence/argument-error the specification
requires when either stored tag disagrees. -/
theorem c1_mismatch_accepted :
    c1Obj.rust_ty ≠ 300
    ∧ c1Obj.ty = ucharOfInt 300
    ∧ test_ud_ptr c1St 300 1 = some 0
    ∧ check_ud_ptr c1St c1T 300 1 = .ok 0 := by
  refine ⟨by decide, by decide, by rfl, by rfl⟩

/-- The arguments `push_string`/`push_non_empty_bytes` hand to the host
`PushString` routine: the memory visible at the passed pointer, and the
passed length. -/
structure PushStrCall where
  buf : List Nat
  len : Nat
deriving DecidableEq

/-- Host `PushString` semantics for the resulting Lua string: a non-zero
length takes that many bytes verbatim; a zero length makes the host compute
the length by scanning for a terminating byte (the hazard documented at
`push_string` in lua.rs). -/
def hostStringOf (c : PushStrCall) : List Nat :=
  if c.len ≠ 0 then c.buf.take c.len else c.buf.takeWhile (· ≠ 0)

/-- `Lua::push_non_empty_bytes`: passes the slice pointer and exact length. -/
def push_non_empty_bytes (bytes : List Nat) : PushStrCall :=
  { buf := bytes, len := bytes.length }

/-- `Lua::push_string` (lua.rs): non-empty bytes go through
`push_non_empty_bytes`; empty input instead passes the literal empty C
string constant (memory a sole terminator byte) with length 0. -/
def push_string (bytes : List Nat) : PushStrCall :=
  if bytes ≠ [] then push_non_empty_bytes bytes else { buf := [0], len := 0 }

/-- C4: a non-empty byte sequence is passed to the host verbatim (pointer
and exact length, embedded zero bytes included) and yields that exact
string; the empty sequence is replaced by the literal empty C string with
length 0, and the resulting host string has length exactly 0. -/
theorem c4_push_string_contract (s : List Nat) :
    (s ≠ [] → push_string s = { buf := s, len := s.length }
      ∧ hostStringOf (push_string s) = s)
    ∧ (s = [] → (push_string s).buf = [0] ∧ (push_string s).len = 0
      ∧ (hostStringOf (push_string s)).length = 0) := by
  constructor
  · intro h
    rw [push_string, if_pos h]
    refine ⟨rfl, ?_⟩
    simp [hostStringOf, push_non_empty_bytes, List.length_eq_zero, h]
  · intro h
    subst h
    exact ⟨rfl, rfl, rfl⟩

/-- Closed instance of the `push_string` contract: a byte string with an
embedded zero passes through verbatim, and the empty string yields host
length 0. -/
theorem c4_push_string_contract_witness :
    push_string [72, 0, 105] = { buf := [72, 0, 105], len := 3 }
    ∧ (hostStringOf (push_string [])).length = 0 :=
  ⟨((c4_push_string_contract [72, 0, 105]).1 (by decide)).1,
   ((c4_push_string_contract []).2 rfl).2.2⟩

lemma uto_pre_eq (s : St V) (T : UTDecl) :
    raw_get (push_lightud (push_registry s) T.keyAddr) (-2)
      = { s with stack :=
          ((rlookup s.registry (.lightud T.keyAddr)).getD .nil) :: .registrytab :: s.stack } := by
  simp [raw_get, push_lightud, push_registry, push_special, resolve_neg_two]

/-- C8: a `user_type_of` call that returns normally leaves the stack one
deeper: the registry table it pushed is the new top and everything below is
unchanged. -/
theorem c8_user_type_of_stack_effect (s s' : St V) (T : UTDecl) (ty : Int)
    (h : user_type_of s T = .ok (ty, s')) :
    s'.stack = .registrytab :: s.stack := by
  simp only [user_type_of, uto_pre_eq] at h
  split at h
  · simp only [Except.ok.injEq, Prod.mk.injEq] at h
    rw [← h.2]
    simp [pop]
  · exact absurd h (by simp)

/-- Concrete session for the `user_type_of` frame effect. -/
def c8S : St Nat :=
  { stack := [], heap := [], registry := [(.lightud 9, .number 240)],
    mtNames := [("M", 240)], mtFields := [], nextTy := 241, allocFail := false }

/-- The same session after `user_type_of`. -/
def c8S' : St Nat :=
  { stack := [.registrytab], heap := [], registry := [(.lightud 9, .number 240)],
    mtNames := [("M", 240)], mtFields := [], nextTy := 241, allocFail := false }

/-- The registered type queried in the concrete session. -/
def c8T : UTDecl :=
  { name := "M", keyAddr := 9, expectedErr := "M expected", needsDrop := false }

/-- Closed instance of the `user_type_of` frame effect. -/
theorem c8_user_type_of_stack_effect_witness :
    user_type_of c8S c8T = .ok (240, c8S') ∧ c8S'.stack = .registrytab :: c8S.stack :=
  ⟨rfl, c8_user_type_of_stack_effect c8S c8S' c8T 240 rfl⟩

lemma create_metatable_fst_stack (s : St V) (n : String) :
    (create_metatable s n).2.stack = .mtable (create_metatable s n).1 :: s.stack := by
  unfold create_metatable
  cases lookupName s.mtNames n <;> simp

lemma create_metatable_registry (s : St V) (n : String) :
    (create_metatable s n).2.registry = s.registry := by
  unfold create_metatable
  cases lookupName s.mtNames n <;> simp

lemma create_metatable_mtFields (s : St V) (n : String) :
    (create_metatable s n).2.mtFields = s.mtFields := by
  unfold create_metatable
  cases lookupName s.mtNames n <;> simp

lemma register_rest_stack (T : UTDecl) (ty : Int) (sA : St V) (rest : List Value)
    (hst : sA.stack = .mtable ty :: rest) :
    (register_rest T ty sA).stack = .mtable ty :: rest := by
  unfold register_rest push_method
  simp only [push_registry, push_special, push_lightud, push_bits, push_number, hst,
    raw_set, resolve_neg_three, pop, List.drop_succ_cons, List.drop_zero]
  split
  · simp [push_c_closure, set_field, resolve_neg_two]
  · rfl

lemma register_rest_registry (T : UTDecl) (ty : Int) (sA : St V) (rest : List Value)
    (hst : sA.stack = .mtable ty :: rest) :
    (register_rest T ty sA).registry
      = rinsert sA.registry (.lightud T.keyAddr) (.number (nat64OfInt ty)) := by
  unfold register_rest push_method
  simp only [push_registry, push_special, push_lightud, push_bits, push_number, hst,
    raw_set, resolve_neg_three, pop, List.drop_succ_cons, List.drop_zero]
  split
  · simp [push_c_closure, set_field, resolve_neg_two]
  · rfl

lemma register_rest_mtFields (T : UTDecl) (ty : Int) (sA : St V) (rest : List Value)
    (hst : sA.stack = .mtable ty :: rest) :
    (register_rest T ty sA).mtFields
      = if T.needsDrop then
          finsert sA.mtFields (ty, "__gc") (.closure .userGc [.number (nat64OfInt ty)])
        else sA.mtFields := by
  unfold register_rest push_method
  simp only [push_registry, push_special, push_lightud, push_bits, push_number, hst,
    raw_set, resolve_neg_three, pop, List.drop_succ_cons, List.drop_zero]
  split
  · simp [push_c_closure, set_field, resolve_neg_two]
  · rfl

/-- C9: `register` returns with the newly created metatable still on top of
the stack and everything below unchanged, provided the caller-supplied
`init_metatable` leaves the stack as it found it. -/
theorem c9_register_stack_effect (s s₁ : St V) (T : UTDecl) (f : Int → St V → St V)
    (ty : Int)
    (hf : ∀ t sx, (f t sx).stack = sx.stack)
    (hreg : register s T f = (ty, s₁)) :
    s₁.stack = .mtable ty :: s.stack := by
  unfold register at hreg
  simp only [Prod.mk.injEq] at hreg
  obtain ⟨h1, h2⟩ := hreg
  subst h1
  rw [← h2, hf]
  exact register_rest_stack T _ _ s.stack (create_metatable_fst_stack s T.name)

/-- Base session for the concrete `register` runs. -/
def c9S : St Nat :=
  { stack := [], heap := [], registry := [], mtNames := [], mtFields := [],
    nextTy := 240, allocFail := false }

/-- The registered type of the concrete `register` runs. -/
def c9T : UTDecl :=
  { name := "P", keyAddr := 11, expectedErr := "P expected", needsDrop := false }

/-- Closed instance of the `register` frame effect. -/
theorem c9_register_stack_effect_witness :
    (register c9S c9T (fun _ sx => sx)).2.stack = .mtable 240 :: c9S.stack := by
  have h := c9_register_stack_effect c9S (register c9S c9T (fun _ sx => sx)).2 c9T
    (fun _ sx => sx) 240 (fun _ _ => rfl) rfl
  exact h

lemma keyEq_lightud (a : Nat) : keyEq (.lightud a) (.lightud a) = true := by
  simp [keyEq]

lemma rlookup_rinsert (r : List (Value × Value)) (k v : Value)
    (hk : keyEq k k = true) : rlookup (rinsert r k v) k = some v := by
  induction r with
  | nil => simp [rinsert, rlookup, hk]
  | cons p rest ih =>
    rcases p with ⟨a, b⟩
    rw [rinsert]
    by_cases h : keyEq a k = true
    · rw [if_pos h, rlookup, if_pos hk]
    · rw [if_neg h, rlookup, if_neg h]
      exact ih

lemma user_type_of_ok (s : St V) (T : UTDecl) (b : Nat)
    (h : rlookup s.registry (.lightud T.keyAddr) = some (.number b)) :
    user_type_of s T
      = .ok (int32OfNat64 b, { s with stack := .registrytab :: s.stack }) := by
  simp only [user_type_of, uto_pre_eq, h, Option.getD_some]
  simp [is_type, get_type, resolve_neg_one, hostTypeOf, get_bits, get_number, pop]

/-- C3: once `register` has returned type id `ty` for `T`, every subsequent
`user_type_of` call for `T` in that session returns exactly `ty` (the id
round-trips through the registry entry stored as number bits under the
identity-pointer key), provided `init_metatable` leaves the registry alone
and `ty` is a `c_int`. -/
theorem c3_register_then_user_type_of (s : St V) (T : UTDecl) (f : Int → St V → St V)
    (hf : ∀ t sx, (f t sx).registry = sx.registry)
    (ty : Int) (s₁ : St V) (hreg : register s T f = (ty, s₁))
    (hlo : -2147483648 ≤ ty) (hhi : ty < 2147483648) :
    ∀ k : Nat, ∃ s', utoIter T k s₁ = .ok (ty, s') := by
  have hkey : rlookup s₁.registry (.lightud T.keyAddr) = some (.number (nat64OfInt ty)) := by
    unfold register at hreg
    simp only [Prod.mk.injEq] at hreg
    obtain ⟨h1, h2⟩ := hreg
    subst h1
    rw [← h2, hf,
      register_rest_registry T _ _ s.stack (create_metatable_fst_stack s T.name),
      create_metatable_registry]
    exact rlookup_rinsert s.registry _ _ (keyEq_lightud T.keyAddr)
  have main : ∀ (k : Nat) (s2 : St V),
      rlookup s2.registry (.lightud T.keyAddr) = some (.number (nat64OfInt ty)) →
      ∃ s', utoIter T k s2 = .ok (ty, s') := by
    intro k
    induction k with
    | zero =>
      intro s2 h2
      refine ⟨{ s2 with stack := .registrytab :: s2.stack }, ?_⟩
      rw [utoIter, user_type_of_ok s2 T _ h2, int32_roundtrip ty hlo hhi]
    | succ n ih =>
      intro s2 h2
      rw [utoIter, user_type_of_ok s2 T _ h2]
      exact ih _ h2
  exact fun k => main k s₁ hkey

/-- Base session for the concrete register-then-query run. -/
def c3S : St Nat :=
  { stack := [], heap := [], registry := [], mtNames := [], mtFields := [],
    nextTy := 240, allocFail := false }

/-- The registered type of the concrete register-then-query run. -/
def c3T : UTDecl :=
  { name := "Q", keyAddr := 7, expectedErr := "Q expected", needsDrop := true }

/-- Closed instance: after a concrete registration returning id 240, the
next `user_type_of` call returns 240. -/
theorem c3_register_then_user_type_of_witness :
    ∃ s', utoIter c3T 0 (register c3S c3T (fun _ sx => sx)).2 = .ok (240, s') :=
  c3_register_then_user_type_of c3S c3T (fun _ sx => sx) (fun _ _ => rfl) 240
    (register c3S c3T (fun _ sx => sx)).2 rfl (by decide) (by decide) 0

lemma flookup_finsert (l : List ((Int × String) × Value)) (k : Int × String) (v : Value) :
    flookup (finsert l k v) k = some v := by
  induction l with
  | nil => simp [finsert, flookup]
  | cons p rest ih =>
    rcases p with ⟨a, b⟩
    rw [finsert]
    by_cases h : a = k
    · rw [if_pos h, flookup, if_pos rfl]
    · rw [if_neg h, flookup, if_neg h]
      exact ih

/-- C5: for a type with a non-trivial destructor, `register` installs the
`__gc` closure (with the type id bound as its upvalue) on the new
metatable, and running that hook on a live, correctly-headed instance
performs exactly the two-step protocol: the explicit `collect` callback on
the still-valid value first, then the in-place destructor, each once. -/
theorem c5_gc_two_phase (s s₁ : St V) (T : UTDecl) (f : Int → St V → St V) (ty : Int)
    (hd : T.needsDrop = true)
    (hf : ∀ t sx, (f t sx).mtFields = sx.mtFields)
    (hreg : register s T f = (ty, s₁))
    (sg : St V) (i : Nat) (obj : UdObj V)
    (hstk : sg.stack = [.udata i])
    (hheap : sg.heap.get? i = some obj)
    (hmt : obj.mt = some ty)
    (hty : obj.ty = ucharOfInt ty)
    (_hrty : obj.rust_ty = ty)
    (hdata : obj.data = some i)
    (hlo : -2147483648 ≤ ty) (hhi : ty < 2147483648) :
    flookup s₁.mtFields (ty, "__gc")
        = some (.closure .userGc [.number (nat64OfInt ty)])
    ∧ user_type_gc T [.number (nat64OfInt ty)] sg = .ok ([.collect i, .drop i], sg) := by
  constructor
  · unfold register at hreg
    simp only [Prod.mk.injEq] at hreg
    obtain ⟨h1, h2⟩ := hreg
    subst h1
    rw [← h2, hf,
      register_rest_mtFields T _ _ s.stack (create_metatable_fst_stack s T.name),
      hd, if_pos rfl, create_metatable_mtFields]
    exact flookup_finsert _ _ _
  · have hcty : method_cx_ty [.number (nat64OfInt ty)] = ty := by
      simp only [method_cx_ty]
      exact int32_roundtrip ty hlo hhi
    have hheap2 : sg.heap[i]? = some obj := by
      rw [← List.get?_eq_getElem?]
      exact hheap
    have hit : is_type sg 1 ty = true := by
      simp [is_type, get_type, hstk, resolve_one_singleton, hostTypeOf, hheap2, hmt]
    have hgu : get_userdata sg 1 = some obj := by
      simp [get_userdata, hstk, resolve_one_singleton, hheap2]
    have htest : test_ud_ptr sg ty 1 = some i := by
      simp [test_ud_ptr, hit, hgu, hty, hdata]
    simp [user_type_gc, hcty, check_ud_ptr, htest]

/-- Base session for the concrete two-phase destruction run. -/
def c5S : St Nat :=
  { stack := [], heap := [], registry := [], mtNames := [], mtFields := [],
    nextTy := 300, allocFail := false }

/-- The registered droppable type of the concrete destruction run. -/
def c5T : UTDecl :=
  { name := "G", keyAddr := 13, expectedErr := "G expected", needsDrop := true }

/-- A correctly-headed live instance of that type (id 300). -/
def c5Obj : UdObj Nat :=
  { data := some 0, ty := 44, rust_ty := 300, payload := 5, mt := some 300 }

/-- The collector's call state: the instance is argument 1. -/
def c5Sg : St Nat :=
  { stack := [.udata 0], heap := [c5Obj], registry := [], mtNames := [("G", 300)],
    mtFields := [], nextTy := 301, allocFail := false }

/-- Closed instance of the two-phase destruction protocol at type id 300. -/
theorem c5_gc_two_phase_witness :
    flookup (register c5S c5T (fun _ sx => sx)).2.mtFields (300, "__gc")
        = some (.closure .userGc [.number (nat64OfInt 300)])
    ∧ user_type_gc c5T [.number (nat64OfInt 300)] c5Sg
        = .ok ([.collect 0, .drop 0], c5Sg) :=
  c5_gc_two_phase c5S (register c5S c5T (fun _ sx => sx)).2 c5T (fun _ sx => sx) 300
    rfl (fun _ _ => rfl) rfl c5Sg 0 c5Obj rfl rfl rfl (by decide) rfl rfl
    (by decide) (by decide)
